import Mathlib

/-!
Traffic simulation: message queue, traffic light and vehicle drive loop

A shallow embedding of `src/TrafficLight.cpp` and `src/Vehicle.cpp`.

* `std::deque<T>` is a `List T` whose head is the front of the deque.
* `double` values are rationals, `long` and `int` values are integers.
* Every operation of `MessageQueue` runs under the queue's mutex, so a run of
  the queue is a sequence of whole operations.
* Clock readings, random draws and the answers of the intersection are inputs
  of the loop iterations.
-/

namespace TrafficSim

/-! ## MessageQueue -/

/-- The queue of `MessageQueue<T>`: `_queue`, front of the deque first. -/
structure MessageQueue (T : Type) where
  queue : List T
deriving DecidableEq, Repr

namespace MessageQueue

/-- A default constructed queue. -/
def empty {T : Type} : MessageQueue T := ⟨[]⟩

/-- Source `MessageQueue<T>::send`: `_queue.emplace_front(msg)`. -/
def send {T : Type} (q : MessageQueue T) (msg : T) : MessageQueue T :=
  ⟨msg :: q.queue⟩

/-- Source `MessageQueue<T>::receive`: waits until `!_queue.empty()`, then takes
`_queue.back()` and does `_queue.pop_back()`.  `none` stands for a call that
stays in the wait because the queue is empty. -/
def receive {T : Type} (q : MessageQueue T) : Option (T × MessageQueue T) :=
  match q.queue.getLast? with
  | none => none
  | some result => some (result, ⟨q.queue.dropLast⟩)

/-- The messages of the queue, oldest first. -/
def pending {T : Type} (q : MessageQueue T) : List T := q.queue.reverse

end MessageQueue

/-- One operation applied to a queue. -/
inductive QueueOp (T : Type) where
  | send (msg : T)
  | receive
deriving DecidableEq, Repr

/-- The values sent by a sequence of operations, in order. -/
def sentValues {T : Type} : List (QueueOp T) → List T
  | [] => []
  | QueueOp.send v :: ops => v :: sentValues ops
  | QueueOp.receive :: ops => sentValues ops

/-- The number of receive operations in a sequence. -/
def receiveCount {T : Type} : List (QueueOp T) → Nat
  | [] => 0
  | QueueOp.send _ :: ops => receiveCount ops
  | QueueOp.receive :: ops => receiveCount ops + 1

/-- Applies the operations one at a time; the second component collects what
the receives returned, in order.  `none` when a receive meets an empty queue. -/
def runOps {T : Type} : MessageQueue T → List T → List (QueueOp T) →
    Option (MessageQueue T × List T)
  | q, got, [] => some (q, got)
  | q, got, QueueOp.send v :: ops => runOps (q.send v) got ops
  | q, got, QueueOp.receive :: ops =>
    match q.receive with
    | none => none
    | some (r, q') => runOps q' (got ++ [r]) ops

/-! ## TrafficLight -/

/-- The enumeration `TrafficLightPhase`. -/
inductive TrafficLightPhase where
  | red
  | green
deriving DecidableEq, Repr

open TrafficLightPhase

/-- How a call of `waitForGreen` ends: it returns, or it stays in `receive`
on an empty queue. -/
inductive WaitOutcome where
  | returned (q : MessageQueue TrafficLightPhase)
  | blocked (q : MessageQueue TrafficLightPhase)
  | running (q : MessageQueue TrafficLightPhase)
deriving DecidableEq, Repr

/-- The loop of `TrafficLight::waitForGreen`, `n` iterations at most;
`running` when the iterations are used up. -/
def waitForGreenLoop : Nat → MessageQueue TrafficLightPhase → WaitOutcome
  | 0, q => WaitOutcome.running q
  | n + 1, q =>
    match q.receive with
    | none => WaitOutcome.blocked q
    | some (current_phase, q') =>
      if current_phase = green then WaitOutcome.returned q'
      else waitForGreenLoop n q'

/-- Source `TrafficLight::waitForGreen` on a queue that nobody sends to meanwhile:
each iteration removes one message, so `length + 1` iterations decide it. -/
def waitForGreen (q : MessageQueue TrafficLightPhase) : WaitOutcome :=
  waitForGreenLoop (q.queue.length + 1) q

/-- Sends the messages in order. -/
def sendAll {T : Type} (q : MessageQueue T) (msgs : List T) : MessageQueue T :=
  msgs.foldl MessageQueue.send q

/-- The distribution `std::uniform_int_distribution<>(lo, hi)` applied to one draw of the
engine: a value between `lo` and `hi`, both included. -/
def uniformIntDistribution (lo hi : Int) (draw : Nat) : Int :=
  lo + (draw : Int) % (hi - lo + 1)

/-- Source `TrafficLight::calculateRandomPhase`: `distr(4000, 6000)` on a fresh
engine, returned as the cycle duration in milliseconds. -/
def calculateRandomPhase (draw : Nat) : Int :=
  uniformIntDistribution 4000 6000 draw

/-- The members of `TrafficLight` that the cycle reads and writes. -/
structure TrafficLight where
  currentPhase : TrafficLightPhase
  cycleDuration : Int
  phaseQueue : MessageQueue TrafficLightPhase
deriving DecidableEq, Repr

/-- The constructor `TrafficLight::TrafficLight`: red, a sampled cycle duration, and the
default constructed (empty) phase queue. -/
def TrafficLight.new (draw : Nat) : TrafficLight :=
  { currentPhase := red
    cycleDuration := calculateRandomPhase draw
    phaseQueue := MessageQueue.empty }

/-- Source `TrafficLight::getCurrentPhase`. -/
def TrafficLight.getCurrentPhase (tl : TrafficLight) : TrafficLightPhase :=
  tl.currentPhase

/-- What one iteration of the loop of `cycleThroughPhases` reads from outside:
the value of `timeSinceLastUpdate` it computes, and the engine draw that
`calculateRandomPhase` uses if the iteration toggles. -/
structure LightTick where
  timeSinceLastUpdate : Int
  draw : Nat
deriving DecidableEq, Repr

/-- One iteration of the loop of `TrafficLight::cycleThroughPhases`. -/
def cycleStep (tl : TrafficLight) (t : LightTick) : TrafficLight :=
  if t.timeSinceLastUpdate ≥ tl.cycleDuration then
    let phase := if tl.currentPhase = red then green else red
    { currentPhase := phase
      phaseQueue := tl.phaseQueue.send phase
      cycleDuration := calculateRandomPhase t.draw }
  else tl

/-- Source `TrafficLight::cycleThroughPhases`, run for the given iterations. -/
def cycleThroughPhases (tl : TrafficLight) (ticks : List LightTick) : TrafficLight :=
  ticks.foldl cycleStep tl

/-- The number of iterations of a run that toggle the phase. -/
def toggleCount : TrafficLight → List LightTick → Nat
  | _, [] => 0
  | tl, t :: ts =>
    (if t.timeSinceLastUpdate ≥ tl.cycleDuration then 1 else 0) + toggleCount (cycleStep tl t) ts

/-- The phases green, red, green, ... : `n` of them. -/
def alternation (n : Nat) : List TrafficLightPhase :=
  (List.range n).map (fun i => if i % 2 = 0 then green else red)

/-! ## Vehicle -/

/-- Modelled from the spec: the junction collaborator (`Intersection.h` is not
among the sources) exposes an identity, `getID`, and a position,
`getPosition`. -/
structure Intersection where
  id : Int
  x : ℚ
  y : ℚ
deriving DecidableEq, Repr

/-- Modelled from the spec: the segment collaborator (`Street.h` is not among
the sources) exposes `getLength`, `getInIntersection` and
`getOutIntersection`. -/
structure Street where
  id : Int
  length : ℚ
  inIntersection : Intersection
  outIntersection : Intersection
deriving DecidableEq, Repr

/-- The members of `Vehicle` that `drive` reads and writes (`_posX` and `_posY`
are what `setPosition` publishes), together with the local variable
`hasEnteredIntersection` of `drive`.  A `shared_ptr` that may be null is an
`Option`. -/
structure Vehicle where
  id : Int
  currStreet : Option Street
  currDestination : Option Intersection
  posStreet : ℚ
  speed : ℚ
  posX : ℚ
  posY : ℚ
  hasEnteredIntersection : Bool
deriving DecidableEq, Repr

/-- The constructor `Vehicle::Vehicle`: no street, position 0 on the street, speed 400; the
members it leaves alone (identity, published position) are parameters, and
`drive` starts with `hasEnteredIntersection = false`. -/
def Vehicle.new (id : Int) (posX posY : ℚ) : Vehicle :=
  { id := id
    currStreet := none
    currDestination := none
    posStreet := 0
    speed := 400
    posX := posX
    posY := posY
    hasEnteredIntersection := false }

/-- Source `Vehicle::setCurrentDestination`. -/
def Vehicle.setCurrentDestination (v : Vehicle) (destination : Intersection) : Vehicle :=
  { v with currDestination := some destination, posStreet := 0 }

/-- Modelled from the spec: `setCurrentStreet` (`Agent.set_segment`, defined in
the absent `Vehicle.h`) stores the segment as the current one. -/
def Vehicle.setCurrentStreet (v : Vehicle) (street : Street) : Vehicle :=
  { v with currStreet := some street }

/-- Modelled from the spec: `setPosition` (of the absent `TrafficObject`)
stores the visible position. -/
def Vehicle.setPosition (v : Vehicle) (x y : ℚ) : Vehicle :=
  { v with posX := x, posY := y }

/-- What one iteration of the loop of `drive` reads from outside: the value of
`timeSinceLastUpdate`, whether `ftrEntryGranted.get()` returns, the answer of
`queryStreets`, and the engine draw for the choice of the next street. -/
structure DriveTick where
  timeSinceLastUpdate : Int
  entryGranted : Bool
  streetOptions : List Street
  draw : Nat
deriving DecidableEq, Repr

/-- The calls that `drive` makes on its destination intersection and the
re-targeting of the vehicle, in the order they happen. -/
inductive DriveEvent where
  | addVehicleToQueue (intersection vehicle : Int)
  | entryGranted (intersection vehicle : Int)
  | vehicleHasLeft (intersection vehicle : Int)
  | retarget (street destination : Int)
deriving DecidableEq, Repr

/-- How a stretch of the loop of `drive` ends.
* `ok`: the iterations completed;
* `awaitingEntry`: the loop is inside `ftrEntryGranted.get()`, which has not
  returned; the vehicle is as it was when the request was issued;
* `nullDeref`: a null `_currStreet` or `_currDestination` was dereferenced;
  the vehicle is as it was at that moment;
* `undefinedRatio`: the street has length 0, the quotient of the doubles is
  infinite or not a number, which the rationals do not have;
* `outOfRange`: `streetOptions.at` was given an index outside the vector. -/
inductive DriveOutcome where
  | ok (v : Vehicle) (events : List DriveEvent)
  | awaitingEntry (v : Vehicle) (events : List DriveEvent)
  | nullDeref (v : Vehicle)
  | undefinedRatio (v : Vehicle)
  | outOfRange (v : Vehicle)
deriving DecidableEq, Repr

/-- Lines 98 to 112 of `drive`: the next street is drawn among the answer of
`queryStreets` with `distr(0, size - 1)` and read with `at`, or it is the
current street when the answer is empty.  `none` when `at` is out of range. -/
def nextStreetOf (street : Street) (t : DriveTick) : Option Street :=
  if t.streetOptions.length > 0 then
    t.streetOptions[(uniformIntDistribution 0 (t.streetOptions.length - 1) t.draw).toNat]?
  else some street

/-- Line 115 of `drive`: the end of the next street whose identity differs from
that of the intersection the vehicle is at. -/
def nextIntersectionOf (nextStreet : Street) (destination : Intersection) : Intersection :=
  if nextStreet.inIntersection.id = destination.id then nextStreet.outIntersection
  else nextStreet.inIntersection

/-- Lines 95 to 127 of `drive`: the check whether the intersection has been
crossed, and the transfer to the next street.  The vehicle has a street and a
destination here. -/
def crossIntersection (v : Vehicle) (street : Street) (destination : Intersection)
    (completion : ℚ) (t : DriveTick) (events : List DriveEvent) : DriveOutcome :=
  if completion ≥ 1 ∧ v.hasEnteredIntersection = true then
    match nextStreetOf street t with
    | none => DriveOutcome.outOfRange v
    | some nextStreet =>
      let nextIntersection := nextIntersectionOf nextStreet destination
      let v' := (v.setCurrentDestination nextIntersection).setCurrentStreet nextStreet
      DriveOutcome.ok { v' with speed := v'.speed * 10, hasEnteredIntersection := false }
        (events ++ [DriveEvent.vehicleHasLeft destination.id v.id,
          DriveEvent.retarget nextStreet.id nextIntersection.id])
  else DriveOutcome.ok v events

/-- Lines 60 to 78 of `drive`: the constant velocity step, the completion of
the street, and the position between the two ends of the street that
`setPosition` publishes.  The variable `l` of the source is computed and never
read; it is left out. -/
def updatePosition (v : Vehicle) (street : Street) (destination : Intersection)
    (timeSinceLastUpdate : Int) : Vehicle :=
  let posStreet := v.posStreet + v.speed * timeSinceLastUpdate / 1000
  let completion := posStreet / street.length
  let i2 := destination
  let i1 :=
    if i2.id = street.inIntersection.id then street.outIntersection
    else street.inIntersection
  let dx := i2.x - i1.x
  let dy := i2.y - i1.y
  ({ v with posStreet := posStreet }).setPosition (i1.x + completion * dx) (i1.y + completion * dy)

/-- One iteration of the loop of `Vehicle::drive` (`cycleDuration` is 1, the
threshold `0.9` is the rational 9/10).  `_posStreet` is advanced before
`_currStreet` and `_currDestination` are dereferenced. -/
def driveStep (v : Vehicle) (t : DriveTick) : DriveOutcome :=
  if t.timeSinceLastUpdate ≥ 1 then
    match v.currStreet, v.currDestination with
    | none, _ =>
      DriveOutcome.nullDeref
        { v with posStreet := v.posStreet + v.speed * t.timeSinceLastUpdate / 1000 }
    | some _, none =>
      DriveOutcome.nullDeref
        { v with posStreet := v.posStreet + v.speed * t.timeSinceLastUpdate / 1000 }
    | some street, some destination =>
      if street.length = 0 then
        DriveOutcome.undefinedRatio
          { v with posStreet := v.posStreet + v.speed * t.timeSinceLastUpdate / 1000 }
      else
        let v2 := updatePosition v street destination t.timeSinceLastUpdate
        let completion := v2.posStreet / street.length
        if completion ≥ 9 / 10 ∧ v2.hasEnteredIntersection = false then
          if t.entryGranted = true then
            crossIntersection { v2 with speed := v2.speed / 10, hasEnteredIntersection := true }
              street destination completion t
              [DriveEvent.addVehicleToQueue destination.id v2.id,
                DriveEvent.entryGranted destination.id v2.id]
          else
            DriveOutcome.awaitingEntry v2 [DriveEvent.addVehicleToQueue destination.id v2.id]
        else crossIntersection v2 street destination completion t []
  else DriveOutcome.ok v []

/-- The loop of `Vehicle::drive` over the given iterations, from the
vehicle as it is; the events of the iterations are concatenated.  It stops at
the first iteration that does not complete. -/
def drive : Vehicle → List DriveTick → DriveOutcome
  | v, [] => DriveOutcome.ok v []
  | v, t :: ts =>
    match driveStep v t with
    | DriveOutcome.ok v' events =>
      match drive v' ts with
      | DriveOutcome.ok v'' events' => DriveOutcome.ok v'' (events ++ events')
      | DriveOutcome.awaitingEntry v'' events' => DriveOutcome.awaitingEntry v'' (events ++ events')
      | o => o
    | o => o

/-- Source `Vehicle::simulate`: launches `drive` on the vehicle as it is; there is no
check before the launch. -/
def Vehicle.simulate (v : Vehicle) (ticks : List DriveTick) : DriveOutcome :=
  drive { v with hasEnteredIntersection := false } ticks

/-! ### The two-intersection scenario -/

/-- The intersection the vehicle starts from. -/
def lapA : Intersection := { id := 1, x := 0, y := 0 }

/-- The intersection at the other end. -/
def lapB : Intersection := { id := 2, x := 100, y := 0 }

/-- The only street: length 100, from `lapA` to `lapB`. -/
def lapStreet : Street :=
  { id := 0, length := 100, inIntersection := lapA, outIntersection := lapB }

/-- The vehicle at the start of lap `n`: on `lapStreet` at position 0 with
speed 400, heading for `lapB` on even laps and `lapA` on odd laps, shown at
the intersection it leaves from. -/
def lapStart (n : Nat) : Vehicle :=
  { id := 7
    currStreet := some lapStreet
    currDestination := some (if n % 2 = 0 then lapB else lapA)
    posStreet := 0
    speed := 400
    posX := if n % 2 = 0 then 0 else 100
    posY := 0
    hasEnteredIntersection := false }

/-- The vehicle of lap `n`, `j` iterations after its admission at position 90:
at position `90 + j/25` with speed 40. -/
def slowState (n j : Nat) : Vehicle :=
  { lapStart n with
    posStreet := 90 + (j : ℚ) / 25
    speed := 40
    posX := if n % 2 = 0 then 90 + (j : ℚ) / 25 else 10 - (j : ℚ) / 25
    hasEnteredIntersection := true }

/-- An iteration 1 millisecond after the previous one, at an intersection that
grants entry at once and reports no other street. -/
def lapTick : DriveTick :=
  { timeSinceLastUpdate := 1, entryGranted := true, streetOptions := [], draw := 0 }

end TrafficSim

namespace TrafficSim
open TrafficLightPhase

/-! ## Lemmas on the message queue -/

theorem pending_send {T : Type} (q : MessageQueue T) (v : T) :
    (q.send v).pending = q.pending ++ [v] := by
  simp [MessageQueue.send, MessageQueue.pending]

theorem receive_of_pending_nil {T : Type} (q : MessageQueue T) (h : q.pending = []) :
    q.receive = none := by
  have hq : q.queue = [] := by simpa [MessageQueue.pending] using h
  simp [MessageQueue.receive, hq]

theorem receive_of_pending_cons {T : Type} (q : MessageQueue T) (a : T) (rest : List T)
    (h : q.pending = a :: rest) : q.receive = some (a, ⟨rest.reverse⟩) := by
  have hq : q.queue = rest.reverse ++ [a] := by
    have := congrArg List.reverse h
    simpa [MessageQueue.pending] using this
  simp [MessageQueue.receive, hq]

theorem runOps_invariant {T : Type} (ops : List (QueueOp T)) :
    ∀ (q : MessageQueue T) (got : List T) (q' : MessageQueue T) (got' : List T),
      runOps q got ops = some (q', got') →
        got' ++ q'.pending = got ++ q.pending ++ sentValues ops ∧
          got'.length = got.length + receiveCount ops := by
  induction ops with
  | nil =>
    intro q got q' got' h
    simp [runOps] at h
    obtain ⟨rfl, rfl⟩ := h
    simp [sentValues, receiveCount]
  | cons op ops ih =>
    intro q got q' got' h
    cases op with
    | send v =>
      simp only [runOps] at h
      have := ih _ _ _ _ h
      simpa [pending_send, sentValues, receiveCount] using this
    | receive =>
      simp only [runOps] at h
      cases hp : q.pending with
      | nil =>
        rw [receive_of_pending_nil q hp] at h
        simp at h
      | cons a rest =>
        rw [receive_of_pending_cons q a rest hp] at h
        simp only at h
        have := ih _ _ _ _ h
        simp [MessageQueue.pending, sentValues, receiveCount] at this ⊢
        constructor
        · simpa [MessageQueue.pending] using this.1
        · omega

theorem runOps_sends {T : Type} (vs : List T) :
    ∀ (q : MessageQueue T) (got : List T) (ops : List (QueueOp T)),
      runOps q got (vs.map QueueOp.send ++ ops) = runOps ⟨vs.reverse ++ q.queue⟩ got ops := by
  induction vs with
  | nil => intro q got ops; simp
  | cons v vs ih =>
    intro q got ops
    simp [runOps, ih, MessageQueue.send]

theorem runOps_receives {T : Type} (vs : List T) :
    ∀ (got : List T),
      runOps ⟨vs.reverse⟩ got (List.replicate vs.length QueueOp.receive) =
        some (MessageQueue.empty, got ++ vs) := by
  induction vs with
  | nil => intro got; simp [runOps, MessageQueue.empty]
  | cons v vs ih =>
    intro got
    have hr : (⟨(v :: vs).reverse⟩ : MessageQueue T).receive = some (v, ⟨vs.reverse⟩) :=
      receive_of_pending_cons _ v vs (by simp [MessageQueue.pending])
    rw [List.length_cons, List.replicate_succ]
    simp only [runOps, hr]
    rw [ih]
    simp

/-! ## Lemmas on `waitForGreen` -/

theorem sendAll_queue {T : Type} (msgs : List T) :
    ∀ q : MessageQueue T, sendAll q msgs = ⟨msgs.reverse ++ q.queue⟩ := by
  induction msgs with
  | nil => intro q; simp [sendAll]
  | cons m ms ih =>
    intro q
    have := ih (q.send m)
    simp only [sendAll, List.foldl_cons] at this ⊢
    rw [this]
    simp [MessageQueue.send]

theorem sendAll_empty {T : Type} (msgs : List T) :
    sendAll MessageQueue.empty msgs = ⟨msgs.reverse⟩ := by
  simp [sendAll_queue, MessageQueue.empty]

theorem waitLoop_returns (reds : List TrafficLightPhase) :
    ∀ (rest : List TrafficLightPhase) (n : Nat), (∀ p ∈ reds, p = red) → reds.length < n →
      waitForGreenLoop n ⟨(reds ++ green :: rest).reverse⟩ = WaitOutcome.returned ⟨rest.reverse⟩ := by
  induction reds with
  | nil =>
    intro rest n _ hn
    obtain ⟨m, rfl⟩ : ∃ m, n = m + 1 := ⟨n - 1, by simp at hn; omega⟩
    have hr : (⟨([] ++ green :: rest).reverse⟩ : MessageQueue TrafficLightPhase).receive =
        some (green, ⟨rest.reverse⟩) :=
      receive_of_pending_cons _ green rest (by simp [MessageQueue.pending])
    simp only [waitForGreenLoop, hr]
    simp
  | cons r reds ih =>
    intro rest n hred hn
    obtain ⟨m, rfl⟩ : ∃ m, n = m + 1 := ⟨n - 1, by simp at hn; omega⟩
    have hr : (⟨(r :: reds ++ green :: rest).reverse⟩ : MessageQueue TrafficLightPhase).receive =
        some (r, ⟨(reds ++ green :: rest).reverse⟩) :=
      receive_of_pending_cons _ r (reds ++ green :: rest) (by simp [MessageQueue.pending])
    have hr_red : r = red := hred r (by simp)
    simp only [waitForGreenLoop, hr]
    rw [if_neg (by rw [hr_red]; decide)]
    exact ih rest m (fun p hp => hred p (by simp [hp])) (by simp at hn; omega)

theorem waitLoop_blocks (msgs : List TrafficLightPhase) :
    ∀ (n : Nat), green ∉ msgs → msgs.length < n →
      waitForGreenLoop n ⟨msgs.reverse⟩ = WaitOutcome.blocked MessageQueue.empty := by
  induction msgs with
  | nil =>
    intro n _ hn
    obtain ⟨m, rfl⟩ : ∃ m, n = m + 1 := ⟨n - 1, by simp at hn; omega⟩
    simp [waitForGreenLoop, MessageQueue.receive, MessageQueue.empty]
  | cons r msgs ih =>
    intro n hg hn
    obtain ⟨m, rfl⟩ : ∃ m, n = m + 1 := ⟨n - 1, by simp at hn; omega⟩
    have hr : (⟨(r :: msgs).reverse⟩ : MessageQueue TrafficLightPhase).receive =
        some (r, ⟨msgs.reverse⟩) :=
      receive_of_pending_cons _ r msgs (by simp [MessageQueue.pending])
    have hne : r ≠ green := fun h => hg (by simp [h])
    simp only [waitForGreenLoop, hr]
    rw [if_neg hne]
    exact ih m (fun h => hg (by simp [h])) (by simp at hn; omega)

theorem split_at_green (msgs : List TrafficLightPhase) (h : green ∈ msgs) :
    ∃ reds rest, msgs = reds ++ green :: rest ∧ ∀ p ∈ reds, p = red := by
  induction msgs with
  | nil => simp at h
  | cons m ms ih =>
    cases m with
    | green => exact ⟨[], ms, by simp, by simp⟩
    | red =>
      have h' : green ∈ ms := by simpa using h
      obtain ⟨reds, rest, he, hr⟩ := ih h'
      refine ⟨red :: reds, rest, by simp [he], ?_⟩
      intro p hp
      rcases List.mem_cons.mp hp with rfl | hp
      · rfl
      · exact hr p hp

/-! ## The message queue is first in, first out -/

/-- C1: for every sequence of sends and receives applied one at a time to an
empty `MessageQueue` in which no receive meets an empty queue, the receives
return, in order, the first values sent (the k-th receive returns the k-th
value sent) and the queue keeps exactly the values sent after those, in the
order sent; in particular sending `vs` and then receiving `vs.length` times
returns `vs` and leaves the queue empty. -/
theorem C1_fifo {T : Type} :
    (∀ (ops : List (QueueOp T)) (q : MessageQueue T) (got : List T),
      runOps MessageQueue.empty [] ops = some (q, got) →
        got.length = receiveCount ops ∧
          got = (sentValues ops).take (receiveCount ops) ∧
          q.pending = (sentValues ops).drop (receiveCount ops)) ∧
    (∀ vs : List T,
      runOps MessageQueue.empty []
          (vs.map QueueOp.send ++ List.replicate vs.length QueueOp.receive) =
        some (MessageQueue.empty, vs)) := by
  constructor
  · intro ops q got h
    obtain ⟨h1, h2⟩ := runOps_invariant ops _ _ _ _ h
    simp [MessageQueue.empty, MessageQueue.pending] at h1 h2
    have hlen : got.length = receiveCount ops := h2
    have htake : got = (sentValues ops).take (receiveCount ops) := by
      rw [← h1, ← hlen]; simp
    refine ⟨hlen, htake, ?_⟩
    have hdrop : q.queue.reverse = (sentValues ops).drop (receiveCount ops) := by
      rw [← h1, ← hlen]; simp
    simpa [MessageQueue.pending] using hdrop
  · intro vs
    rw [runOps_sends]
    simpa [MessageQueue.empty] using runOps_receives vs []

/-- A run of C1: send 1, send 2, receive, send 3, receive. -/
theorem C1_fifo_witness :
    runOps MessageQueue.empty []
        [QueueOp.send 1, QueueOp.send 2, QueueOp.receive, QueueOp.send 3, QueueOp.receive] =
      some (⟨[3]⟩, [1, 2]) ∧
    ([1, 2] : List Nat).length = 2 ∧ [1, 2] = [1, 2, 3].take 2 ∧
      (⟨[3]⟩ : MessageQueue Nat).pending = [1, 2, 3].drop 2 :=
  ⟨by decide,
    C1_fifo.1 [QueueOp.send 1, QueueOp.send 2, QueueOp.receive, QueueOp.send 3, QueueOp.receive]
      ⟨[3]⟩ [1, 2] (by decide)⟩

/-! ## `waitForGreen` -/

/-- C2: when the phase queue holds a green message, `waitForGreen` returns
after removing the messages from the oldest up to and including the oldest
green (all removed before it are red) and leaves the later messages in their
order; when it holds no green message, `waitForGreen` removes every message
and stays in `receive` on the empty queue; so it returns only if a green
message was in the queue. -/
theorem C2_waitForGreen :
    (∀ (reds rest : List TrafficLightPhase), (∀ p ∈ reds, p = red) →
      waitForGreen (sendAll MessageQueue.empty (reds ++ green :: rest)) =
        WaitOutcome.returned (sendAll MessageQueue.empty rest)) ∧
    (∀ msgs : List TrafficLightPhase, green ∈ msgs →
      ∃ reds rest, msgs = reds ++ green :: rest ∧ (∀ p ∈ reds, p = red) ∧
        waitForGreen (sendAll MessageQueue.empty msgs) =
          WaitOutcome.returned (sendAll MessageQueue.empty rest)) ∧
    (∀ msgs : List TrafficLightPhase, green ∉ msgs →
      waitForGreen (sendAll MessageQueue.empty msgs) =
        WaitOutcome.blocked MessageQueue.empty) ∧
    (∀ (msgs : List TrafficLightPhase) (q : MessageQueue TrafficLightPhase),
      waitForGreen (sendAll MessageQueue.empty msgs) = WaitOutcome.returned q →
        green ∈ msgs) := by
  have hret : ∀ (reds rest : List TrafficLightPhase), (∀ p ∈ reds, p = red) →
      waitForGreen (sendAll MessageQueue.empty (reds ++ green :: rest)) =
        WaitOutcome.returned (sendAll MessageQueue.empty rest) := by
    intro reds rest hred
    rw [sendAll_empty, sendAll_empty]
    exact waitLoop_returns reds rest _ hred (by simp; omega)
  refine ⟨hret, ?_, ?_, ?_⟩
  · intro msgs hg
    obtain ⟨reds, rest, rfl, hred⟩ := split_at_green msgs hg
    exact ⟨reds, rest, rfl, hred, hret reds rest hred⟩
  · intro msgs hg
    rw [sendAll_empty]
    exact waitLoop_blocks msgs _ hg (by simp)
  · intro msgs q h
    by_contra hg
    rw [sendAll_empty] at h
    have hb := waitLoop_blocks msgs (msgs.reverse.length + 1) hg (by simp)
    have : waitForGreen ⟨msgs.reverse⟩ = WaitOutcome.blocked MessageQueue.empty := hb
    rw [this] at h
    cases h

/-- A run of C2: red, red, green, red, green in the queue. -/
theorem C2_waitForGreen_witness :
    waitForGreen (sendAll MessageQueue.empty ([red, red] ++ green :: [red, green])) =
      WaitOutcome.returned (sendAll MessageQueue.empty [red, green]) :=
  C2_waitForGreen.1 [red, red] [red, green] (by decide)

/-! ## The cycle of the traffic light -/

theorem cycleThroughPhases_snoc (tl : TrafficLight) (ts : List LightTick) (t : LightTick) :
    cycleThroughPhases tl (ts ++ [t]) = cycleStep (cycleThroughPhases tl ts) t := by
  simp [cycleThroughPhases, List.foldl_append]

theorem toggleCount_snoc (ts : List LightTick) (t : LightTick) :
    ∀ tl : TrafficLight, toggleCount tl (ts ++ [t]) =
      toggleCount tl ts +
        (if t.timeSinceLastUpdate ≥ (cycleThroughPhases tl ts).cycleDuration then 1 else 0) := by
  induction ts with
  | nil => intro tl; simp [toggleCount, cycleThroughPhases]
  | cons a ts ih =>
    intro tl
    rw [List.cons_append]
    simp only [toggleCount]
    rw [ih]
    simp [cycleThroughPhases, Nat.add_assoc]

theorem alternation_succ (n : Nat) :
    alternation (n + 1) = alternation n ++ [if n % 2 = 0 then green else red] := by
  simp [alternation, List.range_succ]

theorem cycle_invariant (draw : Nat) (ticks : List LightTick) :
    (cycleThroughPhases (TrafficLight.new draw) ticks).phaseQueue.pending =
        alternation (toggleCount (TrafficLight.new draw) ticks) ∧
      (cycleThroughPhases (TrafficLight.new draw) ticks).currentPhase =
        (if toggleCount (TrafficLight.new draw) ticks % 2 = 0 then red else green) := by
  induction ticks using List.reverseRecOn with
  | nil =>
    simp [cycleThroughPhases, toggleCount, TrafficLight.new, alternation, MessageQueue.empty,
      MessageQueue.pending]
  | append_singleton ts t ih =>
    obtain ⟨hq, hp⟩ := ih
    rw [cycleThroughPhases_snoc, toggleCount_snoc]
    by_cases hge : t.timeSinceLastUpdate ≥ (cycleThroughPhases (TrafficLight.new draw) ts).cycleDuration
    · rw [if_pos hge, alternation_succ]
      simp only [cycleStep, if_pos hge, pending_send, hq, hp]
      rcases Nat.mod_two_eq_zero_or_one (toggleCount (TrafficLight.new draw) ts) with h0 | h1
      · have h2 : (toggleCount (TrafficLight.new draw) ts + 1) % 2 = 1 := by omega
        simp [h0, h2]
      · have h2 : (toggleCount (TrafficLight.new draw) ts + 1) % 2 = 0 := by omega
        simp [h1, h2]
    · rw [if_neg hge]
      simp only [cycleStep, if_neg hge, Nat.add_zero]
      exact ⟨hq, hp⟩

/-- C6: an iteration of `cycleThroughPhases` changes the phase only if the
elapsed time is at least the cycle duration, and then it flips red to green or
green to red and sends the new phase; an iteration that does not toggle leaves
the light, its queue included, as it was; and after any run from the
constructed light (red, empty queue) the messages sent, oldest first, are
green, red, green, ..., one per toggle, the last one being the current
phase (the phase is red when there was no toggle). -/
theorem C6_toggle_and_publish (draw : Nat) (ticks : List LightTick) :
    (∀ (tl : TrafficLight) (t : LightTick),
      ((cycleStep tl t).currentPhase ≠ tl.currentPhase →
          t.timeSinceLastUpdate ≥ tl.cycleDuration) ∧
        (t.timeSinceLastUpdate ≥ tl.cycleDuration →
          (cycleStep tl t).currentPhase = (if tl.currentPhase = red then green else red) ∧
            (cycleStep tl t).phaseQueue = tl.phaseQueue.send (cycleStep tl t).currentPhase) ∧
        (¬ t.timeSinceLastUpdate ≥ tl.cycleDuration → cycleStep tl t = tl)) ∧
    (cycleThroughPhases (TrafficLight.new draw) ticks).phaseQueue.pending =
        alternation (toggleCount (TrafficLight.new draw) ticks) ∧
    (cycleThroughPhases (TrafficLight.new draw) ticks).phaseQueue.pending.length =
        toggleCount (TrafficLight.new draw) ticks ∧
    (toggleCount (TrafficLight.new draw) ticks = 0 →
      (cycleThroughPhases (TrafficLight.new draw) ticks).currentPhase = red) ∧
    (0 < toggleCount (TrafficLight.new draw) ticks →
      (cycleThroughPhases (TrafficLight.new draw) ticks).phaseQueue.pending.getLast? =
        some (cycleThroughPhases (TrafficLight.new draw) ticks).currentPhase) := by
  obtain ⟨hq, hp⟩ := cycle_invariant draw ticks
  refine ⟨?_, hq, ?_, ?_, ?_⟩
  · intro tl t
    refine ⟨?_, ?_, ?_⟩
    · intro hne
      by_contra hge
      exact hne (by simp [cycleStep, if_neg hge])
    · intro hge
      simp [cycleStep, if_pos hge]
    · intro hge
      simp [cycleStep, if_neg hge]
  · rw [hq]; simp [alternation]
  · intro h0
    rw [hp, h0]; simp
  · intro hpos
    obtain ⟨m, hm⟩ : ∃ m, toggleCount (TrafficLight.new draw) ticks = m + 1 :=
      ⟨toggleCount (TrafficLight.new draw) ticks - 1, by omega⟩
    rw [hq, hp, hm, alternation_succ]
    rcases Nat.mod_two_eq_zero_or_one m with h0 | h1
    · have h2 : (m + 1) % 2 = 1 := by omega
      simp [h0, h2]
    · have h2 : (m + 1) % 2 = 0 := by omega
      simp [h1, h2]

/-- A run of C6 with three toggles among five iterations. -/
theorem C6_toggle_and_publish_witness :
    toggleCount (TrafficLight.new 0)
        [⟨3999, 5⟩, ⟨4000, 1⟩, ⟨4001, 0⟩, ⟨10, 0⟩, ⟨4000, 7⟩] = 3 ∧
      (cycleThroughPhases (TrafficLight.new 0)
        [⟨3999, 5⟩, ⟨4000, 1⟩, ⟨4001, 0⟩, ⟨10, 0⟩, ⟨4000, 7⟩]).phaseQueue.pending =
        [green, red, green] ∧
      (cycleThroughPhases (TrafficLight.new 0)
        [⟨3999, 5⟩, ⟨4000, 1⟩, ⟨4001, 0⟩, ⟨10, 0⟩, ⟨4000, 7⟩]).phaseQueue.pending.getLast? =
        some (cycleThroughPhases (TrafficLight.new 0)
          [⟨3999, 5⟩, ⟨4000, 1⟩, ⟨4001, 0⟩, ⟨10, 0⟩, ⟨4000, 7⟩]).currentPhase :=
  ⟨by decide, by decide,
    (C6_toggle_and_publish 0 [⟨3999, 5⟩, ⟨4000, 1⟩, ⟨4001, 0⟩, ⟨10, 0⟩, ⟨4000, 7⟩]).2.2.2.2
      (by decide)⟩

theorem driveStep_skip (v : Vehicle) (t : DriveTick) (h : t.timeSinceLastUpdate < 1) :
    driveStep v t = DriveOutcome.ok v [] := by
  have : ¬ t.timeSinceLastUpdate ≥ 1 := by omega
  simp [driveStep, this]

theorem driveStep_main (v : Vehicle) (t : DriveTick) (street : Street)
    (destination : Intersection) (hs : v.currStreet = some street)
    (hd : v.currDestination = some destination) (hdt : 1 ≤ t.timeSinceLastUpdate)
    (hlen : street.length ≠ 0) :
    driveStep v t =
      if (updatePosition v street destination t.timeSinceLastUpdate).posStreet / street.length
            ≥ 9 / 10 ∧ v.hasEnteredIntersection = false then
        if t.entryGranted = true then
          crossIntersection
            { updatePosition v street destination t.timeSinceLastUpdate with
              speed := v.speed / 10, hasEnteredIntersection := true }
            street destination
            ((updatePosition v street destination t.timeSinceLastUpdate).posStreet / street.length)
            t
            [DriveEvent.addVehicleToQueue destination.id v.id,
              DriveEvent.entryGranted destination.id v.id]
        else
          DriveOutcome.awaitingEntry (updatePosition v street destination t.timeSinceLastUpdate)
            [DriveEvent.addVehicleToQueue destination.id v.id]
      else
        crossIntersection (updatePosition v street destination t.timeSinceLastUpdate)
          street destination
          ((updatePosition v street destination t.timeSinceLastUpdate).posStreet / street.length)
          t [] := by
  have hge : t.timeSinceLastUpdate ≥ 1 := hdt
  simp only [driveStep, if_pos hge, hs, hd, if_neg hlen]
  rfl

theorem updatePosition_fields (v : Vehicle) (street : Street) (destination : Intersection)
    (dt : Int) :
    (updatePosition v street destination dt).posStreet = v.posStreet + v.speed * dt / 1000 ∧
      (updatePosition v street destination dt).speed = v.speed ∧
      (updatePosition v street destination dt).hasEnteredIntersection = v.hasEnteredIntersection ∧
      (updatePosition v street destination dt).currStreet = v.currStreet ∧
      (updatePosition v street destination dt).currDestination = v.currDestination ∧
      (updatePosition v street destination dt).id = v.id := by
  simp [updatePosition, Vehicle.setPosition]

theorem crossIntersection_cases (v : Vehicle) (street : Street) (destination : Intersection)
    (completion : ℚ) (t : DriveTick) (events : List DriveEvent) (v' : Vehicle)
    (events' : List DriveEvent)
    (h : crossIntersection v street destination completion t events = DriveOutcome.ok v' events') :
    (¬ (completion ≥ 1 ∧ v.hasEnteredIntersection = true) ∧ v' = v ∧ events' = events) ∨
      (completion ≥ 1 ∧ v.hasEnteredIntersection = true ∧
        ∃ nextStreet, nextStreetOf street t = some nextStreet ∧
          v' = { id := v.id
                 currStreet := some nextStreet
                 currDestination := some (nextIntersectionOf nextStreet destination)
                 posStreet := 0
                 speed := v.speed * 10
                 posX := v.posX
                 posY := v.posY
                 hasEnteredIntersection := false } ∧
          events' = events ++ [DriveEvent.vehicleHasLeft destination.id v.id,
            DriveEvent.retarget nextStreet.id (nextIntersectionOf nextStreet destination).id]) := by
  by_cases hc : completion ≥ 1 ∧ v.hasEnteredIntersection = true
  · right
    refine ⟨hc.1, hc.2, ?_⟩
    rw [crossIntersection, if_pos hc] at h
    cases hn : nextStreetOf street t with
    | none => rw [hn] at h; cases h
    | some nextStreet =>
      rw [hn] at h
      simp only [DriveOutcome.ok.injEq] at h
      refine ⟨nextStreet, rfl, h.1.symm, h.2.symm⟩
  · left
    rw [crossIntersection, if_neg hc] at h
    simp only [DriveOutcome.ok.injEq] at h
    exact ⟨hc, h.1.symm, h.2.symm⟩

theorem driveStep_ok_cases (v : Vehicle) (t : DriveTick) (v' : Vehicle)
    (events : List DriveEvent) (h : driveStep v t = DriveOutcome.ok v' events) :
    (t.timeSinceLastUpdate < 1 ∧ v' = v ∧ events = []) ∨
      (1 ≤ t.timeSinceLastUpdate ∧
        ∃ street destination, v.currStreet = some street ∧
          v.currDestination = some destination ∧ street.length ≠ 0 ∧
          ((¬ ((updatePosition v street destination t.timeSinceLastUpdate).posStreet /
                  street.length ≥ 9 / 10 ∧ v.hasEnteredIntersection = false) ∧
              crossIntersection (updatePosition v street destination t.timeSinceLastUpdate)
                street destination
                ((updatePosition v street destination t.timeSinceLastUpdate).posStreet /
                  street.length) t [] = DriveOutcome.ok v' events) ∨
            ((updatePosition v street destination t.timeSinceLastUpdate).posStreet /
                  street.length ≥ 9 / 10 ∧ v.hasEnteredIntersection = false ∧
              t.entryGranted = true ∧
              crossIntersection
                { updatePosition v street destination t.timeSinceLastUpdate with
                  speed := v.speed / 10, hasEnteredIntersection := true }
                street destination
                ((updatePosition v street destination t.timeSinceLastUpdate).posStreet /
                  street.length) t
                [DriveEvent.addVehicleToQueue destination.id v.id,
                  DriveEvent.entryGranted destination.id v.id] = DriveOutcome.ok v' events))) := by
  by_cases hdt : t.timeSinceLastUpdate < 1
  · left
    rw [driveStep_skip v t hdt] at h
    simp only [DriveOutcome.ok.injEq] at h
    exact ⟨hdt, h.1.symm, h.2.symm⟩
  · right
    have hdt1 : 1 ≤ t.timeSinceLastUpdate := by omega
    have hge : t.timeSinceLastUpdate ≥ 1 := hdt1
    refine ⟨hdt1, ?_⟩
    cases hs : v.currStreet with
    | none => simp [driveStep, if_pos hge, hs] at h
    | some street =>
      cases hd : v.currDestination with
      | none => simp [driveStep, if_pos hge, hs, hd] at h
      | some destination =>
        by_cases hlen : street.length = 0
        · simp [driveStep, if_pos hge, hs, hd, hlen] at h
        · refine ⟨street, destination, rfl, rfl, hlen, ?_⟩
          rw [driveStep_main v t street destination hs hd hdt1 hlen] at h
          by_cases hc : (updatePosition v street destination t.timeSinceLastUpdate).posStreet /
              street.length ≥ 9 / 10 ∧ v.hasEnteredIntersection = false
          · right
            rw [if_pos hc] at h
            by_cases hg : t.entryGranted = true
            · rw [if_pos hg] at h
              exact ⟨hc.1, hc.2, hg, h⟩
            · rw [if_neg hg] at h
              cases h
          · left
            rw [if_neg hc] at h
            exact ⟨hc, h⟩

theorem driveStep_speed (s0 : ℚ) (v : Vehicle) (t : DriveTick) (v' : Vehicle)
    (events : List DriveEvent) (h : driveStep v t = DriveOutcome.ok v' events)
    (hP : (v.hasEnteredIntersection = false → v.speed = s0) ∧
      (v.hasEnteredIntersection = true → v.speed = s0 / 10)) :
    (v'.hasEnteredIntersection = false → v'.speed = s0) ∧
      (v'.hasEnteredIntersection = true → v'.speed = s0 / 10) := by
  rcases driveStep_ok_cases v t v' events h with ⟨_, rfl, _⟩ | ⟨_, street, destination, _, _, _, hcase⟩
  · exact hP
  · obtain ⟨hu1, hu2, hu3, _, _, _⟩ :=
      updatePosition_fields v street destination t.timeSinceLastUpdate
    rcases hcase with ⟨_, hx⟩ | ⟨_, hent, _, hx⟩
    · rcases crossIntersection_cases _ _ _ _ _ _ _ _ hx with ⟨_, rfl, _⟩ | ⟨_, he, nextStreet, _, rfl, _⟩
      · rw [hu2, hu3]; exact hP
      · rw [hu3] at he
        have := hP.2 he
        constructor
        · intro _
          show (updatePosition v street destination t.timeSinceLastUpdate).speed * 10 = s0
          rw [hu2, this]; ring
        · intro hf; simp at hf
    · have hs := hP.1 hent
      rcases crossIntersection_cases _ _ _ _ _ _ _ _ hx with ⟨_, rfl, _⟩ | ⟨_, _, nextStreet, _, rfl, _⟩
      · constructor
        · intro hf; simp at hf
        · intro _
          show v.speed / 10 = s0 / 10
          rw [hs]
      · constructor
        · intro _
          show v.speed / 10 * 10 = s0
          rw [hs]; ring
        · intro hf; simp at hf

theorem drive_ok_cons (v : Vehicle) (t : DriveTick) (ts : List DriveTick) (v'' : Vehicle)
    (events : List DriveEvent) (h : drive v (t :: ts) = DriveOutcome.ok v'' events) :
    ∃ v' e1 e2, driveStep v t = DriveOutcome.ok v' e1 ∧ drive v' ts = DriveOutcome.ok v'' e2 ∧
      events = e1 ++ e2 := by
  rw [drive] at h
  cases h1 : driveStep v t with
  | ok v' e1 =>
    rw [h1] at h
    simp only at h
    cases h2 : drive v' ts with
    | ok w e2 =>
      rw [h2] at h
      simp only [DriveOutcome.ok.injEq] at h
      exact ⟨v', e1, e2, rfl, by rw [h2, h.1], h.2.symm⟩
    | awaitingEntry w e2 => rw [h2] at h; cases h
    | nullDeref w => rw [h2] at h; cases h
    | undefinedRatio w => rw [h2] at h; cases h
    | outOfRange w => rw [h2] at h; cases h
  | awaitingEntry w e => rw [h1] at h; cases h
  | nullDeref w => rw [h1] at h; cases h
  | undefinedRatio w => rw [h1] at h; cases h
  | outOfRange w => rw [h1] at h; cases h

theorem drive_speed (s0 : ℚ) (ticks : List DriveTick) :
    ∀ (v v' : Vehicle) (events : List DriveEvent), drive v ticks = DriveOutcome.ok v' events →
      ((v.hasEnteredIntersection = false → v.speed = s0) ∧
        (v.hasEnteredIntersection = true → v.speed = s0 / 10)) →
      (v'.hasEnteredIntersection = false → v'.speed = s0) ∧
        (v'.hasEnteredIntersection = true → v'.speed = s0 / 10) := by
  induction ticks with
  | nil =>
    intro v v' events h hP
    simp only [drive, DriveOutcome.ok.injEq] at h
    rw [← h.1]; exact hP
  | cons t ts ih =>
    intro v v' events h hP
    obtain ⟨w, e1, e2, h1, h2, _⟩ := drive_ok_cons v t ts v' events h
    exact ih w v' e2 h2 (driveStep_speed s0 v t w e1 h1 hP)

theorem driveStep_retarget (v : Vehicle) (t : DriveTick) (v' : Vehicle)
    (events : List DriveEvent) (h : driveStep v t = DriveOutcome.ok v' events)
    (s d : Int) (hre : DriveEvent.retarget s d ∈ events) :
    ∃ street destination nextStreet, v.currStreet = some street ∧
      v.currDestination = some destination ∧ nextStreetOf street t = some nextStreet ∧
      nextStreet.id = s ∧ (nextIntersectionOf nextStreet destination).id = d ∧
      v'.currStreet = some nextStreet ∧
      v'.currDestination = some (nextIntersectionOf nextStreet destination) ∧
      v'.posStreet = 0 ∧ v'.hasEnteredIntersection = false ∧
      DriveEvent.vehicleHasLeft destination.id v.id ∈ events := by
  rcases driveStep_ok_cases v t v' events h with ⟨_, _, rfl⟩ | ⟨_, street, destination, hs, hd, _, hcase⟩
  · simp at hre
  · obtain ⟨_, _, _, _, _, hid⟩ :=
      updatePosition_fields v street destination t.timeSinceLastUpdate
    rcases hcase with ⟨_, hx⟩ | ⟨_, _, _, hx⟩
    · rcases crossIntersection_cases _ _ _ _ _ _ _ _ hx with ⟨_, _, rfl⟩ | ⟨_, _, nextStreet, hn, rfl, rfl⟩
      · simp at hre
      · simp only [List.nil_append, List.mem_cons, DriveEvent.retarget.injEq,
          List.mem_singleton, reduceCtorEq, false_or, List.not_mem_nil, or_false] at hre
        refine ⟨street, destination, nextStreet, hs, hd, hn, hre.1.symm, hre.2.symm, rfl, rfl,
          rfl, rfl, ?_⟩
        rw [hid]; simp
    · rcases crossIntersection_cases _ _ _ _ _ _ _ _ hx with ⟨_, _, rfl⟩ | ⟨_, _, nextStreet, hn, rfl, rfl⟩
      · simp at hre
      · simp only [List.cons_append, List.nil_append, List.mem_cons, DriveEvent.retarget.injEq,
          List.mem_singleton, reduceCtorEq, false_or, List.not_mem_nil, or_false] at hre
        refine ⟨street, destination, nextStreet, hs, hd, hn, hre.1.symm, hre.2.symm, rfl, rfl,
          rfl, rfl, ?_⟩
        simp [hid]

/-- C4: in every run of the drive loop that starts before any admission, the
speed is the initial speed whenever the vehicle is not admitted and a tenth
of it while it is admitted; so right after every segment transfer, whatever
the next street (the same street at a dead end included) and however many
transfers came before, the speed equals the initial speed. -/
theorem C4_speed_restored (v0 : Vehicle) (ticks : List DriveTick) (v : Vehicle)
    (events : List DriveEvent) (h0 : v0.hasEnteredIntersection = false)
    (h : drive v0 ticks = DriveOutcome.ok v events) :
    (v.hasEnteredIntersection = false → v.speed = v0.speed) ∧
      (v.hasEnteredIntersection = true → v.speed = v0.speed / 10) ∧
      (∀ (t : DriveTick) (v' : Vehicle) (events' : List DriveEvent) (s d : Int),
        driveStep v t = DriveOutcome.ok v' events' → DriveEvent.retarget s d ∈ events' →
          v'.hasEnteredIntersection = false ∧ v'.speed = v0.speed) := by
  have hP := drive_speed v0.speed ticks v0 v events h
    ⟨fun _ => rfl, fun hf => by rw [h0] at hf; cases hf⟩
  refine ⟨hP.1, hP.2, ?_⟩
  intro t v' events' s d hstep hre
  have hP' := driveStep_speed v0.speed v t v' events' hstep hP
  obtain ⟨_, _, _, _, _, _, _, _, _, _, _, hent, _⟩ :=
    driveStep_retarget v t v' events' hstep s d hre
  exact ⟨hent, hP'.1 hent⟩

/-- A run of C4: admission after 225 ms, then the transfer at a dead end
250 ms later (10 m at speed 40). -/
theorem C4_speed_restored_witness :
    drive (lapStart 0) [⟨225, true, [], 0⟩] =
        DriveOutcome.ok (slowState 0 0)
          [DriveEvent.addVehicleToQueue 2 7, DriveEvent.entryGranted 2 7] ∧
      driveStep (slowState 0 0) ⟨250, true, [], 0⟩ =
        DriveOutcome.ok (lapStart 1)
          [DriveEvent.vehicleHasLeft 2 7, DriveEvent.retarget 0 1] ∧
      (slowState 0 0).speed = (lapStart 0).speed / 10 ∧
      (lapStart 1).hasEnteredIntersection = false ∧ (lapStart 1).speed = (lapStart 0).speed :=
  have h1 : drive (lapStart 0) [⟨225, true, [], 0⟩] =
      DriveOutcome.ok (slowState 0 0)
        [DriveEvent.addVehicleToQueue 2 7, DriveEvent.entryGranted 2 7] := by
    simp [drive, driveStep, updatePosition, crossIntersection, Vehicle.setPosition, lapStart,
      slowState, lapStreet, lapA, lapB]
    norm_num
  have h2 : driveStep (slowState 0 0) ⟨250, true, [], 0⟩ =
      DriveOutcome.ok (lapStart 1) [DriveEvent.vehicleHasLeft 2 7, DriveEvent.retarget 0 1] := by
    simp [driveStep, updatePosition, crossIntersection, nextStreetOf, nextIntersectionOf,
      Vehicle.setPosition, Vehicle.setCurrentDestination, Vehicle.setCurrentStreet, lapStart,
      slowState, lapStreet, lapA, lapB]
    norm_num
  ⟨h1, h2,
    (C4_speed_restored (lapStart 0) [⟨225, true, [], 0⟩] (slowState 0 0) _ rfl h1).2.1 rfl,
    (C4_speed_restored (lapStart 0) [⟨225, true, [], 0⟩] (slowState 0 0) _ rfl h1).2.2
      ⟨250, true, [], 0⟩ (lapStart 1) _ 0 1 h2 (by simp)⟩

/-- C7: in an iteration of the drive loop whose completion is at least 1.0,
with the vehicle admitted (before the iteration, or by the grant in it), a
destination whose identity is that of one of the two ends of the current
street, these two identities being different, and an empty answer of
`queryStreets`, the iteration completes, the vehicle keeps its current street
and its new destination is the other end of that street. -/
theorem C7_dead_end_reversal (v : Vehicle) (t : DriveTick) (street : Street)
    (destination : Intersection) (hs : v.currStreet = some street)
    (hd : v.currDestination = some destination) (hdt : 1 ≤ t.timeSinceLastUpdate)
    (hc : 1 ≤ (v.posStreet + v.speed * t.timeSinceLastUpdate / 1000) / street.length)
    (hadm : v.hasEnteredIntersection = true ∨ t.entryGranted = true)
    (hends : street.inIntersection.id ≠ street.outIntersection.id)
    (hon : destination.id = street.inIntersection.id ∨
      destination.id = street.outIntersection.id)
    (hq : t.streetOptions = []) :
    ∃ v' events, driveStep v t = DriveOutcome.ok v' events ∧ v'.currStreet = some street ∧
      (destination.id = street.inIntersection.id →
        v'.currDestination = some street.outIntersection) ∧
      (destination.id = street.outIntersection.id →
        v'.currDestination = some street.inIntersection) ∧
      (∃ d, v'.currDestination = some d ∧ d.id ≠ destination.id ∧
        (d = street.inIntersection ∨ d = street.outIntersection)) ∧
      DriveEvent.vehicleHasLeft destination.id v.id ∈ events := by
  have hlen : street.length ≠ 0 := by
    intro h0
    rw [h0, div_zero] at hc
    norm_num at hc
  obtain ⟨hu1, _, hu3, _, _, hid⟩ :=
    updatePosition_fields v street destination t.timeSinceLastUpdate
  have hnext : nextStreetOf street t = some street := by simp [nextStreetOf, hq]
  have hni : (destination.id = street.inIntersection.id →
        nextIntersectionOf street destination = street.outIntersection) ∧
      (destination.id = street.outIntersection.id →
        nextIntersectionOf street destination = street.inIntersection) := by
    constructor
    · intro h; simp [nextIntersectionOf, h]
    · intro h
      have : ¬ street.inIntersection.id = destination.id := by rw [h]; exact hends
      simp [nextIntersectionOf, this]
  have hother : ∃ d, nextIntersectionOf street destination = d ∧ d.id ≠ destination.id ∧
      (d = street.inIntersection ∨ d = street.outIntersection) := by
    rcases hon with h | h
    · exact ⟨_, hni.1 h, by rw [h]; exact fun e => hends e.symm, Or.inr rfl⟩
    · exact ⟨_, hni.2 h, by rw [h]; exact hends, Or.inl rfl⟩
  obtain ⟨d, hd1, hd2, hd3⟩ := hother
  have hc1 : (updatePosition v street destination t.timeSinceLastUpdate).posStreet /
      street.length ≥ 1 := by rw [hu1]; exact hc
  have hc9 : (updatePosition v street destination t.timeSinceLastUpdate).posStreet /
      street.length ≥ 9 / 10 := le_trans (by norm_num) hc1
  rw [driveStep_main v t street destination hs hd hdt hlen]
  by_cases hent : v.hasEnteredIntersection = false
  · have hg : t.entryGranted = true := by
      rcases hadm with h | h
      · rw [hent] at h; cases h
      · exact h
    rw [if_pos ⟨hc9, hent⟩, if_pos hg]
    simp only [crossIntersection, hnext]
    rw [if_pos ⟨hc1, trivial⟩]
    refine ⟨_, _, rfl, rfl, ?_, ?_, ⟨d, ?_, hd2, hd3⟩, ?_⟩
    · intro h; simp [Vehicle.setCurrentStreet, Vehicle.setCurrentDestination, hni.1 h]
    · intro h; simp [Vehicle.setCurrentStreet, Vehicle.setCurrentDestination, hni.2 h]
    · simp [Vehicle.setCurrentStreet, Vehicle.setCurrentDestination, hd1]
    · simp [hid]
  · have hent' : v.hasEnteredIntersection = true := by simpa using hent
    rw [if_neg (fun h => hent h.2)]
    simp only [crossIntersection, hnext]
    rw [if_pos ⟨hc1, by rw [hu3]; exact hent'⟩]
    refine ⟨_, _, rfl, rfl, ?_, ?_, ⟨d, ?_, hd2, hd3⟩, ?_⟩
    · intro h; simp [Vehicle.setCurrentStreet, Vehicle.setCurrentDestination, hni.1 h]
    · intro h; simp [Vehicle.setCurrentStreet, Vehicle.setCurrentDestination, hni.2 h]
    · simp [Vehicle.setCurrentStreet, Vehicle.setCurrentDestination, hd1]
    · simp [hid]

/-- A run of C7: the admitted vehicle reaches the end of the only street. -/
theorem C7_dead_end_reversal_witness :
    ∃ v' events, driveStep (slowState 1 249) lapTick = DriveOutcome.ok v' events ∧
      v'.currStreet = some lapStreet ∧
      (lapA.id = lapStreet.inIntersection.id →
        v'.currDestination = some lapStreet.outIntersection) ∧
      (lapA.id = lapStreet.outIntersection.id →
        v'.currDestination = some lapStreet.inIntersection) ∧
      (∃ d, v'.currDestination = some d ∧ d.id ≠ lapA.id ∧
        (d = lapStreet.inIntersection ∨ d = lapStreet.outIntersection)) ∧
      DriveEvent.vehicleHasLeft lapA.id (slowState 1 249).id ∈ events :=
  C7_dead_end_reversal (slowState 1 249) lapTick lapStreet lapA rfl rfl (by decide)
    (by norm_num [slowState, lapStart, lapTick, lapStreet]) (Or.inl rfl) (by decide)
    (Or.inl rfl) rfl

theorem nextIntersectionOf_end (nextStreet : Street) (destination : Intersection) :
    (nextIntersectionOf nextStreet destination = nextStreet.inIntersection ∨
        nextIntersectionOf nextStreet destination = nextStreet.outIntersection) ∧
      (nextStreet.inIntersection.id ≠ nextStreet.outIntersection.id →
        (nextIntersectionOf nextStreet destination).id ≠ destination.id) := by
  by_cases h : nextStreet.inIntersection.id = destination.id
  · simp only [nextIntersectionOf, if_pos h]
    refine ⟨Or.inr trivial, ?_⟩
    intro hne e
    exact hne (h.trans e.symm)
  · simp only [nextIntersectionOf, if_neg h]
    exact ⟨Or.inl trivial, fun _ => h⟩

/-- C8: after every segment transfer of the drive loop, whatever `queryStreets`
answered, the new destination is one of the two ends of the new current
street, and when the identities of these two ends differ it is not the
intersection just departed; the position on the street is 0 and the vehicle
is no longer marked as entered. -/
theorem C8_transfer_retarget (v : Vehicle) (t : DriveTick) (v' : Vehicle)
    (events : List DriveEvent) (departed : Intersection)
    (hd : v.currDestination = some departed)
    (h : driveStep v t = DriveOutcome.ok v' events)
    (s d : Int) (hre : DriveEvent.retarget s d ∈ events) :
    ∃ nextStreet destination, v'.currStreet = some nextStreet ∧ nextStreet.id = s ∧
      v'.currDestination = some destination ∧ destination.id = d ∧
      (destination = nextStreet.inIntersection ∨ destination = nextStreet.outIntersection) ∧
      (nextStreet.inIntersection.id ≠ nextStreet.outIntersection.id →
        destination.id ≠ departed.id) ∧
      v'.posStreet = 0 ∧ v'.hasEnteredIntersection = false := by
  obtain ⟨street, destination, nextStreet, _, hd', _, hs, hdid, hcs, hcd, hpos, hent, _⟩ :=
    driveStep_retarget v t v' events h s d hre
  have hdep : destination = departed := by
    rw [hd] at hd'
    exact (Option.some.inj hd').symm
  subst hdep
  obtain ⟨h1, h2⟩ := nextIntersectionOf_end nextStreet destination
  exact ⟨nextStreet, _, hcs, hs, hcd, hdid, h1, h2, hpos, hent⟩

/-- A run of C8: at `lapB` the intersection offers one other street, which
leads from `lapB` to a third intersection. -/
theorem C8_transfer_retarget_witness :
    ∃ nextStreet destination,
      ({ id := 7
         currStreet := some ⟨5, 30, lapB, ⟨3, 100, 30⟩⟩
         currDestination := some ⟨3, 100, 30⟩
         posStreet := 0
         speed := 400
         posX := 100
         posY := 0
         hasEnteredIntersection := false } : Vehicle).currStreet = some nextStreet ∧
      nextStreet.id = 5 ∧
      ({ id := 7
         currStreet := some ⟨5, 30, lapB, ⟨3, 100, 30⟩⟩
         currDestination := some ⟨3, 100, 30⟩
         posStreet := 0
         speed := 400
         posX := 100
         posY := 0
         hasEnteredIntersection := false } : Vehicle).currDestination = some destination ∧
      destination.id = 3 ∧
      (destination = nextStreet.inIntersection ∨ destination = nextStreet.outIntersection) ∧
      (nextStreet.inIntersection.id ≠ nextStreet.outIntersection.id →
        destination.id ≠ lapB.id) ∧
      ({ id := 7
         currStreet := some ⟨5, 30, lapB, ⟨3, 100, 30⟩⟩
         currDestination := some ⟨3, 100, 30⟩
         posStreet := 0
         speed := 400
         posX := 100
         posY := 0
         hasEnteredIntersection := false } : Vehicle).posStreet = 0 ∧
      ({ id := 7
         currStreet := some ⟨5, 30, lapB, ⟨3, 100, 30⟩⟩
         currDestination := some ⟨3, 100, 30⟩
         posStreet := 0
         speed := 400
         posX := 100
         posY := 0
         hasEnteredIntersection := false } : Vehicle).hasEnteredIntersection = false :=
  C8_transfer_retarget (slowState 0 249)
    ⟨1, true, [⟨5, 30, lapB, ⟨3, 100, 30⟩⟩], 4⟩ _
    [DriveEvent.vehicleHasLeft 2 7, DriveEvent.retarget 5 3] lapB rfl
    (by
      simp [driveStep, updatePosition, crossIntersection, nextStreetOf, nextIntersectionOf,
        uniformIntDistribution, Vehicle.setPosition, Vehicle.setCurrentDestination,
        Vehicle.setCurrentStreet, lapStart, slowState, lapStreet, lapA, lapB]
      norm_num)
    5 3 (by simp)

theorem drive_skipped (skipped : List DriveTick) (hskip : ∀ s ∈ skipped, s.timeSinceLastUpdate < 1) :
    ∀ (v : Vehicle) (rest : List DriveTick), drive v (skipped ++ rest) = drive v rest := by
  induction skipped with
  | nil => intro v rest; rfl
  | cons s ss ih =>
    intro v rest
    have hs : s.timeSinceLastUpdate < 1 := hskip s (by simp)
    have hrest := ih (fun x hx => hskip x (by simp [hx])) v rest
    rw [List.cons_append, drive, driveStep_skip v s hs]
    simp only []
    rw [hrest]
    cases drive v rest <;> simp

/-- C9, as stated, fails: `simulate` on a freshly constructed vehicle starts
the loop, and the first iteration, 1 ms later, moves the position on the
street from 0 to 0.4 and then dereferences the null `_currStreet`. -/
theorem C9_fresh_vehicle_faults :
    (Vehicle.new 7 0 0).currStreet = none ∧
      (Vehicle.new 7 0 0).simulate [lapTick] =
        DriveOutcome.nullDeref { Vehicle.new 7 0 0 with posStreet := 2 / 5 } ∧
      (Vehicle.new 7 0 0).posStreet = 0 ∧ (2 / 5 : ℚ) ≠ 0 := by
  refine ⟨rfl, ?_, rfl, by norm_num⟩
  simp [Vehicle.simulate, drive, driveStep, Vehicle.new, lapTick]
  norm_num

/-- C9, amended: a vehicle whose current street or destination is unset is not
rejected when its loop is started: `simulate` runs `drive` without a check,
iterations that come less than 1 ms after the previous update do nothing, and
the first other iteration adds speed times elapsed time to the position on
the street and then dereferences the missing street or destination. -/
theorem C9_unset_not_rejected (v : Vehicle) (skipped : List DriveTick) (t : DriveTick)
    (later : List DriveTick) (hunset : v.currStreet = none ∨ v.currDestination = none)
    (hskip : ∀ s ∈ skipped, s.timeSinceLastUpdate < 1) (hdt : 1 ≤ t.timeSinceLastUpdate) :
    v.simulate skipped = DriveOutcome.ok { v with hasEnteredIntersection := false } [] ∧
      v.simulate (skipped ++ t :: later) =
        DriveOutcome.nullDeref
          { v with
            posStreet := v.posStreet + v.speed * t.timeSinceLastUpdate / 1000
            hasEnteredIntersection := false } := by
  have hge : t.timeSinceLastUpdate ≥ 1 := hdt
  constructor
  · have := drive_skipped skipped hskip { v with hasEnteredIntersection := false } []
    rw [List.append_nil] at this
    rw [Vehicle.simulate, this, drive]
  · rw [Vehicle.simulate, drive_skipped skipped hskip _ _, drive]
    rcases hunset with h | h
    · simp [driveStep, if_pos hge, h]
    · cases hs : v.currStreet with
      | none => simp [driveStep, if_pos hge, hs]
      | some street => simp [driveStep, if_pos hge, hs, h]

/-- A run of the amended C9: the constructed vehicle, one idle iteration, then
one after 1 ms. -/
theorem C9_unset_not_rejected_witness :
    (Vehicle.new 7 0 0).simulate [⟨0, true, [], 0⟩] =
        DriveOutcome.ok { Vehicle.new 7 0 0 with hasEnteredIntersection := false } [] ∧
      (Vehicle.new 7 0 0).simulate ([⟨0, true, [], 0⟩] ++ lapTick :: [lapTick]) =
        DriveOutcome.nullDeref
          { Vehicle.new 7 0 0 with
            posStreet := (Vehicle.new 7 0 0).posStreet +
              (Vehicle.new 7 0 0).speed * lapTick.timeSinceLastUpdate / 1000
            hasEnteredIntersection := false } :=
  C9_unset_not_rejected (Vehicle.new 7 0 0) [⟨0, true, [], 0⟩] lapTick [lapTick] (Or.inl rfl)
    (by decide) (by decide)

end TrafficSim
